import Mathlib

/-!
Verification of the EVM (earned-value management) progress arithmetic, the
report dispatch, and the snapshot bookkeeping of a construction-management
web application.

The arithmetic lives in two call sites:
  * a scheduled command (`projects/management/commands/update_project_progress.py`,
    `Command.handle`), and
  * a detail view (`projects/views.py`, `project_detail`);
plus the reporting helpers (`reports/utils.py`, `reports/views.py`) and the
snapshot `update_or_create` keyed by `(project, snapshot_date)`
(`projects/migrations/0002_progress_snapshot.py` declares the unique pair).

Python `float`/`Decimal` arithmetic is embedded as exact rationals (ℚ); dates
are embedded as day numbers (ℤ), so `(d2 - d1).days` becomes `d2 - d1`;
nullable numeric model fields are embedded as ℚ with `None` identified with
`0`, which agrees with Python truthiness in every condition the code uses
(`x and x > 0` holds exactly when the field is non-null and positive).
The Python computation assigns `progress`, `spi` and `cpi` to independent
variables; each variable is embedded as its own function of the inputs.
-/

/-- A row of `engineering.models.ScheduleActivity` as used by the EVM loops:
an integer planned duration, a completion percentage, and optional planned
start/end dates (day numbers). -/
structure ScheduleActivity where
  duration_days : Int
  completion_percentage : ℚ
  planned_start : Option Int
  planned_end : Option Int
deriving DecidableEq, Repr

/-- Both call sites: `planned_total = sum(a.duration_days for a in activities
if a.duration_days > 0) or 0` (the `or 0` is the identity on this
never-negative sum). -/
def plannedTotal (acts : List ScheduleActivity) : Int :=
  ((acts.filter fun a => 0 < a.duration_days).map fun a => a.duration_days).sum

/-- Both call sites: `duration = max(1, a.duration_days);
weight = duration / planned_total`. -/
def weight (pt : Int) (a : ScheduleActivity) : ℚ :=
  ((max 1 a.duration_days : Int) : ℚ) / (pt : ℚ)

/-- One activity's term of the earned-value accumulator (both call sites):
`weight * (a.completion_percentage / 100.0)`. -/
def activityEarned (pt : Int) (a : ScheduleActivity) : ℚ :=
  weight pt a * (a.completion_percentage / 100)

/-- One activity's term of the planned-value accumulator (both call sites):
when both planned dates are present,
`total_days = max(1, (planned_end - planned_start).days)`; `elapsed` is
`total_days` once today has reached the planned end, `0` when today has not
passed the planned start, and `(today - planned_start).days` in between; the
term is `weight * min(1.0, max(0.0, elapsed / total_days))`. Activities
missing either date contribute nothing. -/
def activityPlanned (today : Int) (pt : Int) (a : ScheduleActivity) : ℚ :=
  match a.planned_start, a.planned_end with
  | some ps, some pe =>
      let total_days : Int := max 1 (pe - ps)
      let elapsed : Int :=
        if pe ≤ today then total_days
        else if today ≤ ps then 0
        else today - ps
      weight pt a * min 1 (max 0 ((elapsed : ℚ) / (total_days : ℚ)))
  | _, _ => 0

/-- The `earned` accumulator after the loop over all activities. -/
def evmEarned (acts : List ScheduleActivity) : ℚ :=
  (acts.map (activityEarned (plannedTotal acts))).sum

/-- The `planned` accumulator after the loop over all activities. -/
def evmPlanned (today : Int) (acts : List ScheduleActivity) : ℚ :=
  (acts.map (activityPlanned today (plannedTotal acts))).sum

/-- Python's `round(x, n)` embedded over ℚ: round `x` to `n` decimal places. -/
def roundTo (n : ℕ) (x : ℚ) : ℚ :=
  ((round (x * 10 ^ n) : ℤ) : ℚ) / 10 ^ n

/-- The `1e-6` guard added to both numerator and denominator of the SPI. -/
def eps : ℚ := 1 / 1000000

/-- The `progress` variable of `Command.handle` in
`update_project_progress.py`: `0.0` initially; with activities present and a
positive `planned_total`, `round(earned * 100.0, 2)`; with no activities and a
positive budget, `round(min(100.0, actual_cost / estimated_budget * 100.0), 2)`. -/
def commandProgress (acts : List ScheduleActivity)
    (actual_cost estimated_budget : ℚ) : ℚ :=
  if acts = [] then
    if 0 < estimated_budget then
      roundTo 2 (min 100 (actual_cost / estimated_budget * 100))
    else 0
  else if 0 < plannedTotal acts then roundTo 2 (evmEarned acts * 100)
  else 0

/-- The `spi` variable of `Command.handle`: `None` unless activities exist and
`planned_total > 0`, in which case `round((earned + eps) / (planned + eps), 2)`
with `eps = 1e-6`. -/
def commandSpi (today : Int) (acts : List ScheduleActivity) : Option ℚ :=
  if acts = [] then none
  else if 0 < plannedTotal acts then
    some (roundTo 2 ((evmEarned acts + eps) / (evmPlanned today acts + eps)))
  else none

/-- The `cpi` variable of `Command.handle`:
`round(estimated_budget / actual_cost, 2)` when both cost figures are present
and positive, else `None`. -/
def commandCpi (actual_cost estimated_budget : ℚ) : Option ℚ :=
  if 0 < actual_cost ∧ 0 < estimated_budget then
    some (roundTo 2 (estimated_budget / actual_cost))
  else none

/-- The triple computed per project by either call site. -/
structure EvmResult where
  progress : ℚ
  spi : Option ℚ
  cpi : Option ℚ
deriving DecidableEq, Repr

/-- The per-project EVM figures stored by the scheduled command. -/
def commandEvm (today : Int) (acts : List ScheduleActivity)
    (actual_cost estimated_budget : ℚ) : EvmResult :=
  { progress := commandProgress acts actual_cost estimated_budget
    spi := commandSpi today acts
    cpi := commandCpi actual_cost estimated_budget }

/-- The `overall_progress` variable of `project_detail` in
`projects/views.py`: same arithmetic as `commandProgress` except both
occurrences round to 1 decimal place (`round(..., 1)`). -/
def viewProgress (acts : List ScheduleActivity)
    (actual_cost estimated_budget : ℚ) : ℚ :=
  if acts = [] then
    if 0 < estimated_budget then
      roundTo 1 (min 100 (actual_cost / estimated_budget * 100))
    else 0
  else if 0 < plannedTotal acts then roundTo 1 (evmEarned acts * 100)
  else 0

/-- The `spi` variable of `project_detail`:
`round((earned_weight + epsilon) / (planned_weight + epsilon), 2)` with
`epsilon = 1e-6`, under the same guards as the command. -/
def viewSpi (today : Int) (acts : List ScheduleActivity) : Option ℚ :=
  if acts = [] then none
  else if 0 < plannedTotal acts then
    some (roundTo 2 ((evmEarned acts + eps) / (evmPlanned today acts + eps)))
  else none

/-- The `cpi` variable of `project_detail`: same lines as the command's. -/
def viewCpi (actual_cost estimated_budget : ℚ) : Option ℚ :=
  if 0 < actual_cost ∧ 0 < estimated_budget then
    some (roundTo 2 (estimated_budget / actual_cost))
  else none

/-- The per-project EVM figures put into the detail template context. -/
def viewEvm (today : Int) (acts : List ScheduleActivity)
    (actual_cost estimated_budget : ℚ) : EvmResult :=
  { progress := viewProgress acts actual_cost estimated_budget
    spi := viewSpi today acts
    cpi := viewCpi actual_cost estimated_budget }

/-- The progress percentage before its final rounding, common to both call
sites (the earned value times 100 in the EVM branch, the clamped cost ratio
in the fallback branch). -/
def rawProgress (acts : List ScheduleActivity)
    (actual_cost estimated_budget : ℚ) : ℚ :=
  if acts = [] then
    if 0 < estimated_budget then min 100 (actual_cost / estimated_budget * 100)
    else 0
  else if 0 < plannedTotal acts then evmEarned acts * 100
  else 0

/-- The planned-value contribution of one activity as the specification
claim words it: the duration weight times the elapsed-time fraction clamped
to `[0, 1]`, the fraction being `1` on or after the planned end, `0` on or
before the planned start, and `(today - planned_start).days /
max(1, (planned_end - planned_start).days)` in between; `0` without both
dates. -/
def claimPlannedContribution (today : Int) (pt : Int) (a : ScheduleActivity) : ℚ :=
  match a.planned_start, a.planned_end with
  | some ps, some pe =>
      let frac : ℚ :=
        if pe ≤ today then 1
        else if today ≤ ps then 0
        else ((today - ps : Int) : ℚ) / ((max 1 (pe - ps) : Int) : ℚ)
      weight pt a * min 1 (max 0 frac)
  | _, _ => 0

/-- Which third-party generator a report request is routed to. -/
inductive DocKind
  | pdf
  | excel
  | csv
deriving DecidableEq, Repr

/-- What `generate_and_save_report` produces for one request: the generator
used, the file extension of the saved file, and the content type recorded with
it. -/
structure GeneratedReport where
  kind : DocKind
  file_extension : String
  content_type : String
deriving DecidableEq, Repr

/-- The format dispatch of `generate_and_save_report` in `reports/views.py`:
`'pdf'` routes to `generate_pdf_report` (extension `pdf`, content type
`application/pdf`), `'excel'` to `generate_excel_report` (extension `xlsx`,
Excel workbook content type), and any other format to `generate_csv_report`
(extension `csv`, content type `text/csv`). -/
def generate_and_save_report (format : String) : GeneratedReport :=
  if format = "pdf" then
    { kind := DocKind.pdf, file_extension := "pdf", content_type := "application/pdf" }
  else if format = "excel" then
    { kind := DocKind.excel, file_extension := "xlsx",
      content_type := "application/vnd.openxmlformats-officedocument.spreadsheetml.sheet" }
  else
    { kind := DocKind.csv, file_extension := "csv", content_type := "text/csv" }

/-- A row of `projects.models.Project` as touched by `project_detail`:
the cost figures the view reads and writes plus the other persisted columns
it leaves alone (represented by name, status and owner). -/
structure Project where
  name : String
  status : String
  estimated_budget : ℚ
  actual_cost : ℚ
  created_by : Nat
deriving DecidableEq, Repr

/-- The slice of the template context built by `project_detail` that the
claims are about, together with the project record as persisted by the
view's `project.save()`. -/
structure DetailContext where
  project : Project
  total_expenses : ℚ
  overall_progress : ℚ
  spi : Option ℚ
  cpi : Option ℚ
deriving DecidableEq, Repr

/-- The view `project_detail` of `projects/views.py`: sums the project's expense
amounts, overwrites `project.actual_cost` with that sum and saves the
project, then runs the EVM block (reading the just-written `actual_cost`)
and assembles the context. -/
def project_detail (today : Int) (p : Project) (expense_amounts : List ℚ)
    (acts : List ScheduleActivity) : DetailContext :=
  let total_expenses := expense_amounts.sum
  let p2 : Project := { p with actual_cost := total_expenses }
  let r := viewEvm today acts p2.actual_cost p2.estimated_budget
  { project := p2
    total_expenses := total_expenses
    overall_progress := r.progress
    spi := r.spi
    cpi := r.cpi }

/-- A row of `ProjectProgressSnapshot` (migration `0002_progress_snapshot`):
a project reference, a snapshot date, and the three stored figures. The
migration also declares `unique_together = (project, snapshot_date)`. -/
structure Snapshot where
  project_id : Nat
  snapshot_date : Int
  progress_percent : ℚ
  spi : Option ℚ
  cpi : Option ℚ
deriving DecidableEq, Repr

/-- The row update applied by `update_or_create(project=..., snapshot_date=...,
defaults={...})` to a matching row: the three `defaults` columns are
overwritten, the key columns are untouched. -/
def applySnapshotDefaults (pid : Nat) (d : Int) (prog : ℚ) (spi cpi : Option ℚ)
    (s : Snapshot) : Snapshot :=
  if s.project_id = pid ∧ s.snapshot_date = d then
    { s with progress_percent := prog, spi := spi, cpi := cpi }
  else s

/-- Django's `update_or_create` on the snapshot table: when a row with the
given `(project, snapshot_date)` key exists it is updated in place (created
flag `false`), otherwise a new row is inserted (created flag `true`). -/
def update_or_create (db : List Snapshot) (pid : Nat) (d : Int)
    (prog : ℚ) (spi cpi : Option ℚ) : List Snapshot × Bool :=
  if db.any fun s => decide (s.project_id = pid ∧ s.snapshot_date = d) then
    (db.map (applySnapshotDefaults pid d prog spi cpi), false)
  else
    (db ++ [{ project_id := pid, snapshot_date := d, progress_percent := prog,
              spi := spi, cpi := cpi }], true)

/-- One project as seen by the scheduled command: its id, cost figures, and
the schedule activities reachable through its schedules. -/
structure CommandProject where
  id : Nat
  actual_cost : ℚ
  estimated_budget : ℚ
  activities : List ScheduleActivity
deriving DecidableEq, Repr

/-- The body of the per-project loop of `Command.handle`: compute the EVM
figures and `update_or_create` the snapshot keyed by `(project, today)`. -/
def handleStep (today : Int) (db : List Snapshot) (p : CommandProject) :
    List Snapshot :=
  let r := commandEvm today p.activities p.actual_cost p.estimated_budget
  (update_or_create db p.id today r.progress r.spi r.cpi).1

/-- One run of the `update_project_progress` command over all projects. -/
def handleRun (today : Int) (projects : List CommandProject)
    (db : List Snapshot) : List Snapshot :=
  projects.foldl (handleStep today) db

/-- How many snapshot rows carry the key `(pid, d)`. -/
def snapshotCount (db : List Snapshot) (pid : Nat) (d : Int) : ℕ :=
  db.countP fun s => decide (s.project_id = pid ∧ s.snapshot_date = d)

/-- A row of `projects.models.Project` as aggregated by `get_report_data`
in `reports/utils.py`: the `budget` and `actual_cost` columns. -/
structure ReportProject where
  budget : ℚ
  actual_cost : ℚ
deriving DecidableEq, Repr

/-- The dictionary entries computed by the `'financial_overview'` branch of
`get_report_data`. -/
structure FinancialOverviewData where
  total_budget : ℚ
  total_spent : ℚ
  remaining_budget : ℚ
  budget_utilization : ℚ
deriving DecidableEq, Repr

/-- The `'financial_overview'` branch of `get_report_data`: the two `Sum`
aggregates (`or 0` on an empty queryset is the empty sum), their difference,
and `total_spent / total_budget * 100` guarded by `total_budget > 0`. -/
def financial_overview (projects : List ReportProject) : FinancialOverviewData :=
  let total_budget := (projects.map fun p => p.budget).sum
  let total_spent := (projects.map fun p => p.actual_cost).sum
  { total_budget := total_budget
    total_spent := total_spent
    remaining_budget := total_budget - total_spent
    budget_utilization :=
      if 0 < total_budget then total_spent / total_budget * 100 else 0 }

/-- Concrete activity list: two activities whose weighted completion is
`1/6`, so the progress percentage `50/3 = 16.66…` separates rounding to one
and to two decimal places. -/
def c1Acts : List ScheduleActivity :=
  [⟨1, 10, none, none⟩, ⟨2, 20, none, none⟩]

/-- Concrete activity: earned value `1/2`, planned value `1/1000`, so the
`1e-6` guard visibly shifts the SPI ratio. -/
def c4Act : ScheduleActivity := ⟨10, 50, some 0, some 1000⟩

/-- Concrete activity list with one zero-duration activity: the duration
weights sum to `2`, driving the progress percentage to `200`. -/
def c6Acts : List ScheduleActivity :=
  [⟨1, 100, none, none⟩, ⟨0, 100, none, none⟩]

theorem roundTo_spec (n : ℕ) (x : ℚ) (k : ℤ)
    (h1 : (k : ℚ) ≤ x * 10 ^ n + 1 / 2) (h2 : x * 10 ^ n + 1 / 2 < k + 1) :
    roundTo n x = (k : ℚ) / 10 ^ n := by
  unfold roundTo
  rw [round_eq, Int.floor_eq_iff.mpr ⟨h1, h2⟩]

theorem roundTo_zero (n : ℕ) : roundTo n 0 = 0 := by
  simp [roundTo]

theorem roundTo_le_roundTo (n : ℕ) {x y : ℚ} (h : x ≤ y) :
    roundTo n x ≤ roundTo n y := by
  unfold roundTo
  have hr : round (x * 10 ^ n) ≤ round (y * 10 ^ n) := by
    rw [round_eq, round_eq]
    exact Int.floor_le_floor (by nlinarith [pow_pos (show (0:ℚ) < 10 by norm_num) n])
  gcongr

theorem roundTo_two_hundred : roundTo 2 100 = 100 := by
  rw [show ((100 : ℚ)) = ((100 : ℤ) : ℚ) by norm_num]
  rw [roundTo_spec 2 ((100 : ℤ) : ℚ) 10000 (by norm_num) (by norm_num)]
  norm_num

/-- C3: for every activity carrying both planned dates, its planned-value
contribution is the duration weight times the elapsed-time fraction clamped
to `[0, 1]`, the fraction being `1` on or after the planned end, `0` on or
before the planned start, and `(today - planned_start).days` over
`max(1, (planned_end - planned_start).days)` strictly in between; an
activity missing either date contributes nothing to planned value. -/
theorem C3_planned_value_contribution (today pt : Int) (a : ScheduleActivity) :
    activityPlanned today pt a = claimPlannedContribution today pt a := by
  obtain ⟨d, c, ops, ope⟩ := a
  cases ops with
  | none => rfl
  | some ps =>
    cases ope with
    | none => rfl
    | some pe =>
      simp only [activityPlanned, claimPlannedContribution]
      by_cases h1 : pe ≤ today
      · simp only [if_pos h1]
        have hpos : (0 : ℤ) < max 1 (pe - ps) :=
          lt_of_lt_of_le one_pos (le_max_left _ _)
        have hne : ((max 1 (pe - ps) : Int) : ℚ) ≠ 0 := by
          exact_mod_cast hpos.ne'
        rw [div_self hne]
      · by_cases h2 : today ≤ ps
        · simp only [if_neg h1, if_pos h2]
          norm_num
        · simp only [if_neg h1, if_neg h2]

/-- C1 (amended): on identical inputs the scheduled command and the detail
view produce the same SPI and the same CPI, and both round the same
underlying progress percentage — but the command rounds it to 2 decimal
places while the view rounds it to 1, so the two reported progress figures
can disagree. -/
theorem C1_amended_evm_agreement (today : Int) (acts : List ScheduleActivity)
    (ac eb : ℚ) :
    (commandEvm today acts ac eb).spi = (viewEvm today acts ac eb).spi ∧
    (commandEvm today acts ac eb).cpi = (viewEvm today acts ac eb).cpi ∧
    (commandEvm today acts ac eb).progress = roundTo 2 (rawProgress acts ac eb) ∧
    (viewEvm today acts ac eb).progress = roundTo 1 (rawProgress acts ac eb) := by
  refine ⟨rfl, rfl, ?_, ?_⟩
  · show commandProgress acts ac eb = _
    unfold commandProgress rawProgress
    split
    · split
      · rfl
      · rw [roundTo_zero]
    · split
      · rfl
      · rw [roundTo_zero]
  · show viewProgress acts ac eb = _
    unfold viewProgress rawProgress
    split
    · split
      · rfl
      · rw [roundTo_zero]
    · split
      · rfl
      · rw [roundTo_zero]

/-- C1 is false as stated: on the same two activities (and equal costs and
date) the command reports progress `16.67` and the view `16.7`. -/
theorem C1_counterexample :
    (commandEvm 0 c1Acts 0 0).progress ≠ (viewEvm 0 c1Acts 0 0).progress := by
  have he : evmEarned c1Acts = 1 / 6 := by
    norm_num [evmEarned, c1Acts, activityEarned, weight, plannedTotal]
  have h1 : (commandEvm 0 c1Acts 0 0).progress = 1667 / 100 := by
    show commandProgress c1Acts 0 0 = _
    unfold commandProgress
    rw [if_neg (by simp [c1Acts]), if_pos (by decide), he]
    rw [show (1 : ℚ) / 6 * 100 = 50 / 3 by norm_num]
    rw [roundTo_spec 2 (50 / 3) 1667 (by norm_num) (by norm_num)]
    norm_num
  have h2 : (viewEvm 0 c1Acts 0 0).progress = 167 / 10 := by
    show viewProgress c1Acts 0 0 = _
    unfold viewProgress
    rw [if_neg (by simp [c1Acts]), if_pos (by decide), he]
    rw [show (1 : ℚ) / 6 * 100 = 50 / 3 by norm_num]
    rw [roundTo_spec 1 (50 / 3) 167 (by norm_num) (by norm_num)]
    norm_num
  rw [h1, h2]
  norm_num

/-- C2: with activities present and a positive total of the positive planned
durations, the stored progress percentage is the weighted completion — the
sum over all activities of `max(1, duration_days) / planned_total *
(completion_percentage / 100)` — times 100, rounded (to the 2 decimal places
the snapshot stores). -/
theorem C2_weighted_completion (today : Int) (acts : List ScheduleActivity)
    (ac eb : ℚ) (hne : acts ≠ []) (hpt : 0 < plannedTotal acts) :
    (commandEvm today acts ac eb).progress =
      roundTo 2 ((acts.map fun a =>
        ((max 1 a.duration_days : Int) : ℚ) / (plannedTotal acts : ℚ) *
          (a.completion_percentage / 100)).sum * 100) := by
  show commandProgress acts ac eb = _
  unfold commandProgress
  rw [if_neg hne, if_pos hpt]
  rfl

theorem C2_witness :
    c1Acts ≠ [] ∧ 0 < plannedTotal c1Acts ∧
      (commandEvm 0 c1Acts 0 0).progress =
        roundTo 2 ((c1Acts.map fun a =>
          ((max 1 a.duration_days : Int) : ℚ) / (plannedTotal c1Acts : ℚ) *
            (a.completion_percentage / 100)).sum * 100) :=
  ⟨by simp [c1Acts], by decide,
   C2_weighted_completion 0 c1Acts 0 0 (by simp [c1Acts]) (by decide)⟩

/-- C4 (amended): with activities present and a positive total of positive
planned durations, the derived SPI is `round((EV + 1e-6) / (PV + 1e-6), 2)`
— the ratio of earned value to planned value with a `1e-6` guard added to
both sides before rounding to 2 decimal places, not the bare rounded
ratio. -/
theorem C4_amended_spi_with_epsilon (today : Int) (acts : List ScheduleActivity)
    (ac eb : ℚ) (hne : acts ≠ []) (hpt : 0 < plannedTotal acts) :
    (commandEvm today acts ac eb).spi =
      some (roundTo 2 ((evmEarned acts + eps) / (evmPlanned today acts + eps))) := by
  show commandSpi today acts = _
  unfold commandSpi
  rw [if_neg hne, if_pos hpt]

theorem C4_witness :
    [c4Act] ≠ [] ∧ 0 < plannedTotal [c4Act] ∧
      (commandEvm 1 [c4Act] 0 0).spi =
        some (roundTo 2 ((evmEarned [c4Act] + eps) / (evmPlanned 1 [c4Act] + eps))) :=
  ⟨by simp, by decide,
   C4_amended_spi_with_epsilon 1 [c4Act] 0 0 (by simp) (by decide)⟩

/-- C4 is false as stated: for one activity with earned value `1/2` and
planned value `1/1000`, the code derives SPI `499.5`, while the bare ratio
`EV / PV = 500` rounded to 2 decimal places is `500`. -/
theorem C4_counterexample :
    (commandEvm 1 [c4Act] 0 0).spi ≠
      some (roundTo 2 (evmEarned [c4Act] / evmPlanned 1 [c4Act])) := by
  have he : evmEarned [c4Act] = 1 / 2 := by
    norm_num [evmEarned, c4Act, activityEarned, weight, plannedTotal]
  have hp : evmPlanned 1 [c4Act] = 1 / 1000 := by
    norm_num [evmPlanned, c4Act, activityPlanned, weight, plannedTotal]
  have h1 : (commandEvm 1 [c4Act] 0 0).spi = some (999 / 2) := by
    show commandSpi 1 [c4Act] = _
    unfold commandSpi
    rw [if_neg (by simp), if_pos (by decide), he, hp]
    rw [show ((1 : ℚ) / 2 + eps) / (1 / 1000 + eps) = 500001 / 1001 by
      norm_num [eps]]
    rw [roundTo_spec 2 (500001 / 1001) 49950 (by norm_num) (by norm_num)]
    norm_num
  rw [h1, he, hp]
  rw [show ((1 : ℚ) / 2) / (1 / 1000) = ((500 : ℤ) : ℚ) by norm_num]
  rw [roundTo_spec 2 ((500 : ℤ) : ℚ) 50000 (by norm_num) (by norm_num)]
  norm_num

/-- C5 (amended): both call sites derive
`CPI = round(estimated_budget / actual_cost, 2)` exactly when the actual
cost and the estimated budget are both positive; for any other project
(in particular one with no recorded cost) the CPI is `None`. -/
theorem C5_amended_cpi_guarded (today : Int) (acts : List ScheduleActivity)
    (ac eb : ℚ) :
    (commandEvm today acts ac eb).cpi =
      (if 0 < ac ∧ 0 < eb then some (roundTo 2 (eb / ac)) else none) ∧
    (viewEvm today acts ac eb).cpi =
      (if 0 < ac ∧ 0 < eb then some (roundTo 2 (eb / ac)) else none) :=
  ⟨rfl, rfl⟩

/-- C5 is false as stated: a project with positive actual cost but zero
estimated budget gets no CPI at all (`None`), not the rounded ratio. -/
theorem C5_counterexample :
    (commandEvm 0 [] 50 0).cpi = none ∧
      (none : Option ℚ) ≠ some (roundTo 2 ((0 : ℚ) / 50)) := by
  constructor
  · show commandCpi 50 0 = none
    unfold commandCpi
    rw [if_neg (by norm_num)]
  · simp

/-- C7: the report dispatch of `generate_and_save_report` selects the PDF
generator (content type `application/pdf`) exactly for format `'pdf'`, the
Excel workbook generator exactly for format `'excel'`, and the CSV generator
(content type `text/csv`) for every other format. -/
theorem C7_report_dispatch (format : String) :
    (format = "pdf" →
      generate_and_save_report format =
        { kind := DocKind.pdf, file_extension := "pdf",
          content_type := "application/pdf" }) ∧
    (format = "excel" →
      generate_and_save_report format =
        { kind := DocKind.excel, file_extension := "xlsx",
          content_type :=
            "application/vnd.openxmlformats-officedocument.spreadsheetml.sheet" }) ∧
    (format ≠ "pdf" → format ≠ "excel" →
      generate_and_save_report format =
        { kind := DocKind.csv, file_extension := "csv",
          content_type := "text/csv" }) := by
  refine ⟨fun h => ?_, fun h => ?_, fun h1 h2 => ?_⟩
  · unfold generate_and_save_report
    rw [if_pos h]
  · unfold generate_and_save_report
    rw [if_neg (by rw [h]; decide), if_pos h]
  · unfold generate_and_save_report
    rw [if_neg h1, if_neg h2]

theorem C7_witness :
    generate_and_save_report "pdf" =
      { kind := DocKind.pdf, file_extension := "pdf",
        content_type := "application/pdf" } ∧
    generate_and_save_report "excel" =
      { kind := DocKind.excel, file_extension := "xlsx",
        content_type :=
          "application/vnd.openxmlformats-officedocument.spreadsheetml.sheet" } ∧
    generate_and_save_report "csv" =
      { kind := DocKind.csv, file_extension := "csv",
        content_type := "text/csv" } :=
  ⟨(C7_report_dispatch "pdf").1 rfl, (C7_report_dispatch "excel").2.1 rfl,
   (C7_report_dispatch "csv").2.2 (by decide) (by decide)⟩

/-- C8: the detail view persists the project with `actual_cost` overwritten
by the sum of its expense amounts, changes no other project field, and
derives the CPI from that freshly written `actual_cost`. -/
theorem C8_detail_view_frame (today : Int) (p : Project)
    (expense_amounts : List ℚ) (acts : List ScheduleActivity) :
    (project_detail today p expense_amounts acts).project.actual_cost =
        expense_amounts.sum ∧
    (project_detail today p expense_amounts acts).project.name = p.name ∧
    (project_detail today p expense_amounts acts).project.status = p.status ∧
    (project_detail today p expense_amounts acts).project.estimated_budget =
        p.estimated_budget ∧
    (project_detail today p expense_amounts acts).project.created_by =
        p.created_by ∧
    (project_detail today p expense_amounts acts).cpi =
        viewCpi expense_amounts.sum p.estimated_budget :=
  ⟨rfl, rfl, rfl, rfl, rfl, rfl⟩

/-- C10: for the financial overview report, `remaining_budget` is the budget
sum minus the spent sum (an empty selection summing to 0), and
`budget_utilization` is `total_spent / total_budget * 100` when the budget
sum is positive and `0` otherwise. -/
theorem C10_financial_overview_fields (projects : List ReportProject) :
    (financial_overview projects).remaining_budget =
        (projects.map fun p => p.budget).sum -
          (projects.map fun p => p.actual_cost).sum ∧
    (0 < (projects.map fun p => p.budget).sum →
      (financial_overview projects).budget_utilization =
        (projects.map fun p => p.actual_cost).sum /
          (projects.map fun p => p.budget).sum * 100) ∧
    ((projects.map fun p => p.budget).sum ≤ 0 →
      (financial_overview projects).budget_utilization = 0) := by
  refine ⟨rfl, fun h => ?_, fun h => ?_⟩
  · show (if 0 < (projects.map fun p => p.budget).sum then _ else _) = _
    rw [if_pos h]
  · show (if 0 < (projects.map fun p => p.budget).sum then _ else _) = _
    rw [if_neg (not_lt.mpr h)]

theorem C10_witness :
    (financial_overview [⟨200, 50⟩]).remaining_budget = 150 ∧
    (financial_overview [⟨200, 50⟩]).budget_utilization = 25 := by
  have h := C10_financial_overview_fields [⟨200, 50⟩]
  constructor
  · rw [h.1]
    norm_num
  · rw [h.2.1 (by norm_num)]
    norm_num

theorem list_sum_map_div (l : List ScheduleActivity)
    (f : ScheduleActivity → ℚ) (c : ℚ) :
    (l.map fun a => f a / c).sum = (l.map f).sum / c := by
  induction l with
  | nil => simp
  | cons a t ih => simp [ih, add_div]

theorem list_sum_map_intCast (l : List ScheduleActivity)
    (f : ScheduleActivity → ℤ) :
    (l.map fun a => ((f a : ℤ) : ℚ)).sum = (((l.map f).sum : ℤ) : ℚ) := by
  induction l with
  | nil => simp
  | cons a t ih =>
    simp only [List.map_cons, List.sum_cons, ih]
    push_cast
    ring

theorem duration_sum_pos (l : List ScheduleActivity) (hne : l ≠ [])
    (h : ∀ a ∈ l, 0 < a.duration_days) :
    0 < (l.map fun a => a.duration_days).sum := by
  induction l with
  | nil => exact absurd rfl hne
  | cons a t ih =>
    simp only [List.map_cons, List.sum_cons]
    rcases eq_or_ne t [] with rfl | hne2
    · simpa using h a (by simp)
    · have h2 := ih hne2 fun b hb => h b (List.mem_cons_of_mem _ hb)
      have ha := h a (List.mem_cons_self _ _)
      omega

theorem plannedTotal_pos (acts : List ScheduleActivity) (hne : acts ≠ [])
    (hdur : ∀ a ∈ acts, 0 < a.duration_days) : 0 < plannedTotal acts := by
  unfold plannedTotal
  rw [List.filter_eq_self.mpr fun a ha => decide_eq_true (hdur a ha)]
  exact duration_sum_pos acts hne hdur

theorem weight_nonneg (pt : Int) (a : ScheduleActivity) (hpt : 0 < pt) :
    0 ≤ weight pt a := by
  unfold weight
  apply div_nonneg
  · exact_mod_cast le_trans zero_le_one (le_max_left 1 a.duration_days)
  · exact_mod_cast hpt.le

theorem weight_sum_eq_one (acts : List ScheduleActivity) (hne : acts ≠ [])
    (hdur : ∀ a ∈ acts, 0 < a.duration_days) :
    (acts.map (weight (plannedTotal acts))).sum = 1 := by
  have hpt := plannedTotal_pos acts hne hdur
  have hfil : acts.filter (fun a => 0 < a.duration_days) = acts :=
    List.filter_eq_self.mpr fun a ha => decide_eq_true (hdur a ha)
  have hmax : (acts.map fun a => ((max 1 a.duration_days : Int) : ℚ)) =
      acts.map fun a => ((a.duration_days : ℤ) : ℚ) := by
    apply List.map_congr_left
    intro a ha
    rw [max_eq_right (by exact_mod_cast hdur a ha)]
  have hsum : (acts.map fun a => ((a.duration_days : ℤ) : ℚ)).sum =
      ((plannedTotal acts : ℤ) : ℚ) := by
    rw [list_sum_map_intCast acts fun a => a.duration_days]
    unfold plannedTotal
    rw [hfil]
  unfold weight
  rw [list_sum_map_div acts (fun a => ((max 1 a.duration_days : Int) : ℚ)) _,
    hmax, hsum]
  exact div_self (by exact_mod_cast hpt.ne')

theorem evmEarned_bounds (acts : List ScheduleActivity) (hne : acts ≠ [])
    (hdur : ∀ a ∈ acts, 0 < a.duration_days)
    (hc : ∀ a ∈ acts,
      0 ≤ a.completion_percentage ∧ a.completion_percentage ≤ 100) :
    0 ≤ evmEarned acts ∧ evmEarned acts ≤ 1 := by
  have hpt := plannedTotal_pos acts hne hdur
  constructor
  · unfold evmEarned
    have h0 : ((acts.map fun _ => (0:ℚ)).sum : ℚ) ≤
        (acts.map (activityEarned (plannedTotal acts))).sum := by
      apply List.sum_le_sum
      intro a ha
      exact mul_nonneg (weight_nonneg _ a hpt) (by linarith [(hc a ha).1])
    simpa using h0
  · unfold evmEarned
    calc (acts.map (activityEarned (plannedTotal acts))).sum
        ≤ (acts.map (weight (plannedTotal acts))).sum := by
          apply List.sum_le_sum
          intro a ha
          have hw := weight_nonneg (plannedTotal acts) a hpt
          have hle : a.completion_percentage / 100 ≤ 1 := by
            linarith [(hc a ha).2]
          calc activityEarned (plannedTotal acts) a
              = weight (plannedTotal acts) a *
                  (a.completion_percentage / 100) := rfl
            _ ≤ weight (plannedTotal acts) a * 1 :=
                mul_le_mul_of_nonneg_left hle hw
            _ = weight (plannedTotal acts) a := mul_one _
      _ = 1 := weight_sum_eq_one acts hne hdur

theorem activityPlanned_bounds (today pt : Int) (a : ScheduleActivity)
    (hpt : 0 < pt) :
    0 ≤ activityPlanned today pt a ∧ activityPlanned today pt a ≤ weight pt a := by
  have hw := weight_nonneg pt a hpt
  obtain ⟨d, c, ops, ope⟩ := a
  cases ops with
  | none => exact ⟨le_refl 0, hw⟩
  | some ps =>
    cases ope with
    | none => exact ⟨le_refl 0, hw⟩
    | some pe =>
      simp only [activityPlanned]
      have hclamp0 : (0:ℚ) ≤ min 1 (max 0 (((if pe ≤ today then max 1 (pe - ps)
          else if today ≤ ps then 0 else today - ps : Int) : ℚ) /
          ((max 1 (pe - ps) : Int) : ℚ))) :=
        le_min zero_le_one (le_max_left 0 _)
      have hclamp1 : min 1 (max 0 (((if pe ≤ today then max 1 (pe - ps)
          else if today ≤ ps then 0 else today - ps : Int) : ℚ) /
          ((max 1 (pe - ps) : Int) : ℚ))) ≤ 1 := min_le_left 1 _
      constructor
      · exact mul_nonneg hw hclamp0
      · calc weight pt ⟨d, c, some ps, some pe⟩ * _
            ≤ weight pt ⟨d, c, some ps, some pe⟩ * 1 :=
              mul_le_mul_of_nonneg_left hclamp1 hw
          _ = weight pt ⟨d, c, some ps, some pe⟩ := mul_one _

theorem evmPlanned_bounds (today : Int) (acts : List ScheduleActivity)
    (hne : acts ≠ []) (hdur : ∀ a ∈ acts, 0 < a.duration_days) :
    0 ≤ evmPlanned today acts ∧ evmPlanned today acts ≤ 1 := by
  have hpt := plannedTotal_pos acts hne hdur
  constructor
  · unfold evmPlanned
    have h0 : ((acts.map fun _ => (0:ℚ)).sum : ℚ) ≤
        (acts.map (activityPlanned today (plannedTotal acts))).sum := by
      apply List.sum_le_sum
      intro a ha
      exact (activityPlanned_bounds today _ a hpt).1
    simpa using h0
  · unfold evmPlanned
    calc (acts.map (activityPlanned today (plannedTotal acts))).sum
        ≤ (acts.map (weight (plannedTotal acts))).sum :=
          List.sum_le_sum fun a ha => (activityPlanned_bounds today _ a hpt).2
      _ = 1 := weight_sum_eq_one acts hne hdur

theorem roundTo_one_hundred : roundTo 1 100 = 100 := by
  rw [show ((100 : ℚ)) = ((100 : ℤ) : ℚ) by norm_num]
  rw [roundTo_spec 1 ((100 : ℤ) : ℚ) 1000 (by norm_num) (by norm_num)]
  norm_num

/-- C6 (amended): when every activity has a positive planned duration (and
completion percentages lie in `[0, 100]`), both call sites keep the progress
percentage in `[0, 100]` and the accumulated planned-value weight in
`[0, 1]`; the claim's allowance for zero or negative durations is exactly
what breaks the bound. -/
theorem C6_amended_bounds (today : Int) (acts : List ScheduleActivity)
    (ac eb : ℚ) (hne : acts ≠ [])
    (hdur : ∀ a ∈ acts, 0 < a.duration_days)
    (hc : ∀ a ∈ acts,
      0 ≤ a.completion_percentage ∧ a.completion_percentage ≤ 100) :
    0 ≤ (commandEvm today acts ac eb).progress ∧
    (commandEvm today acts ac eb).progress ≤ 100 ∧
    0 ≤ (viewEvm today acts ac eb).progress ∧
    (viewEvm today acts ac eb).progress ≤ 100 ∧
    0 ≤ evmPlanned today acts ∧ evmPlanned today acts ≤ 1 := by
  have hpt := plannedTotal_pos acts hne hdur
  have hE := evmEarned_bounds acts hne hdur hc
  have hP := evmPlanned_bounds today acts hne hdur
  have hprog : (commandEvm today acts ac eb).progress =
      roundTo 2 (evmEarned acts * 100) := by
    show commandProgress acts ac eb = _
    unfold commandProgress
    rw [if_neg hne, if_pos hpt]
  have hprogv : (viewEvm today acts ac eb).progress =
      roundTo 1 (evmEarned acts * 100) := by
    show viewProgress acts ac eb = _
    unfold viewProgress
    rw [if_neg hne, if_pos hpt]
  refine ⟨?_, ?_, ?_, ?_, hP.1, hP.2⟩
  · rw [hprog, ← roundTo_zero 2]
    exact roundTo_le_roundTo 2 (by nlinarith [hE.1])
  · rw [hprog]
    nth_rewrite 2 [← roundTo_two_hundred]
    exact roundTo_le_roundTo 2 (by nlinarith [hE.2])
  · rw [hprogv, ← roundTo_zero 1]
    exact roundTo_le_roundTo 1 (by nlinarith [hE.1])
  · rw [hprogv]
    nth_rewrite 2 [← roundTo_one_hundred]
    exact roundTo_le_roundTo 1 (by nlinarith [hE.2])

theorem C6_witness :
    ([⟨2, 50, some 0, some 10⟩] : List ScheduleActivity) ≠ [] ∧
    (∀ a ∈ ([⟨2, 50, some 0, some 10⟩] : List ScheduleActivity),
      0 < a.duration_days) ∧
    (∀ a ∈ ([⟨2, 50, some 0, some 10⟩] : List ScheduleActivity),
      0 ≤ a.completion_percentage ∧ a.completion_percentage ≤ 100) ∧
    (0 ≤ (commandEvm 5 [⟨2, 50, some 0, some 10⟩] 0 0).progress ∧
      (commandEvm 5 [⟨2, 50, some 0, some 10⟩] 0 0).progress ≤ 100 ∧
      0 ≤ (viewEvm 5 [⟨2, 50, some 0, some 10⟩] 0 0).progress ∧
      (viewEvm 5 [⟨2, 50, some 0, some 10⟩] 0 0).progress ≤ 100 ∧
      0 ≤ evmPlanned 5 [⟨2, 50, some 0, some 10⟩] ∧
      evmPlanned 5 [⟨2, 50, some 0, some 10⟩] ≤ 1) :=
  ⟨by simp, by decide,
   by intro a ha; simp only [List.mem_singleton] at ha; subst ha; norm_num,
   C6_amended_bounds 5 [⟨2, 50, some 0, some 10⟩] 0 0 (by simp) (by decide)
     (by intro a ha; simp only [List.mem_singleton] at ha; subst ha; norm_num)⟩

/-- C6 is false as stated: with one activity of duration 1 at 100% and one
of duration 0 at 100% (all completions within `[0, 100]`), the stored
progress percentage is `200`, outside `[0, 100]`. -/
theorem C6_counterexample :
    (∀ a ∈ c6Acts,
      0 ≤ a.completion_percentage ∧ a.completion_percentage ≤ 100) ∧
      100 < (commandEvm 0 c6Acts 0 0).progress := by
  constructor
  · intro a ha
    simp only [c6Acts, List.mem_cons, List.mem_singleton] at ha
    rcases ha with rfl | rfl | h
    · norm_num
    · norm_num
    · simp at h
  · have he : evmEarned c6Acts = 2 := by
      norm_num [evmEarned, c6Acts, activityEarned, weight, plannedTotal]
    have hp : (commandEvm 0 c6Acts 0 0).progress = 200 := by
      show commandProgress c6Acts 0 0 = _
      unfold commandProgress
      rw [if_neg (by simp [c6Acts]), if_pos (by decide), he]
      rw [show (2 : ℚ) * 100 = ((200 : ℤ) : ℚ) by norm_num]
      rw [roundTo_spec 2 ((200 : ℤ) : ℚ) 20000 (by norm_num) (by norm_num)]
      norm_num
    rw [hp]
    norm_num

theorem snapshotCount_map_defaults (db : List Snapshot) (pid : Nat) (d : Int)
    (prog : ℚ) (spi cpi : Option ℚ) (pid2 : Nat) (d2 : Int) :
    snapshotCount (db.map (applySnapshotDefaults pid d prog spi cpi)) pid2 d2 =
      snapshotCount db pid2 d2 := by
  induction db with
  | nil => rfl
  | cons s t ih =>
    simp only [List.map_cons]
    unfold snapshotCount at ih ⊢
    rw [List.countP_cons, List.countP_cons, ih]
    congr 1
    unfold applySnapshotDefaults
    split
    · rfl
    · rfl

theorem count_update_or_create_self (db : List Snapshot) (pid : Nat) (d : Int)
    (prog : ℚ) (spi cpi : Option ℚ) (h : snapshotCount db pid d ≤ 1) :
    snapshotCount (update_or_create db pid d prog spi cpi).1 pid d = 1 := by
  unfold update_or_create
  by_cases hany :
      (db.any fun s => decide (s.project_id = pid ∧ s.snapshot_date = d)) = true
  · rw [if_pos hany]
    show snapshotCount (db.map (applySnapshotDefaults pid d prog spi cpi)) pid d = 1
    rw [snapshotCount_map_defaults]
    have hpos : 0 < snapshotCount db pid d := by
      unfold snapshotCount
      rw [List.countP_pos_iff]
      obtain ⟨s, hs, hps⟩ := List.any_eq_true.mp hany
      exact ⟨s, hs, hps⟩
    omega
  · rw [if_neg hany]
    show snapshotCount (db ++ [(⟨pid, d, prog, spi, cpi⟩ : Snapshot)]) pid d = 1
    unfold snapshotCount
    rw [List.countP_append]
    have h0 : db.countP
        (fun s => decide (s.project_id = pid ∧ s.snapshot_date = d)) = 0 := by
      rw [List.countP_eq_zero]
      intro s hs hps
      exact hany (List.any_eq_true.mpr ⟨s, hs, hps⟩)
    rw [h0]
    simp

theorem count_update_or_create_other (db : List Snapshot) (pid : Nat) (d : Int)
    (prog : ℚ) (spi cpi : Option ℚ) (pid2 : Nat) (d2 : Int)
    (h : ¬(pid2 = pid ∧ d2 = d)) :
    snapshotCount (update_or_create db pid d prog spi cpi).1 pid2 d2 =
      snapshotCount db pid2 d2 := by
  unfold update_or_create
  split
  · show snapshotCount (db.map (applySnapshotDefaults pid d prog spi cpi)) pid2 d2 = _
    exact snapshotCount_map_defaults db pid d prog spi cpi pid2 d2
  · show snapshotCount (db ++ [(⟨pid, d, prog, spi, cpi⟩ : Snapshot)]) pid2 d2 = _
    unfold snapshotCount
    rw [List.countP_append]
    have h1 : List.countP
        (fun s => decide (s.project_id = pid2 ∧ s.snapshot_date = d2))
        [(⟨pid, d, prog, spi, cpi⟩ : Snapshot)] = 0 := by
      simp only [List.countP_cons, List.countP_nil]
      have hne : ¬(pid = pid2 ∧ d = d2) := fun hx => h ⟨hx.1.symm, hx.2.symm⟩
      simp [hne]
    rw [h1]
    omega

theorem handleStep_count_le (today : Int) (db : List Snapshot)
    (q : CommandProject) (pid : Nat) (d : Int)
    (h : snapshotCount db pid d ≤ 1) :
    snapshotCount (handleStep today db q) pid d ≤ 1 := by
  unfold handleStep
  by_cases hk : pid = q.id ∧ d = today
  · obtain ⟨rfl, rfl⟩ := hk
    exact (count_update_or_create_self db q.id _ _ _ _ h).le
  · rw [count_update_or_create_other db q.id today _ _ _ pid d hk]
    exact h

theorem handleStep_count_eq_one (today : Int) (db : List Snapshot)
    (q : CommandProject) (pid : Nat)
    (h1 : snapshotCount db pid today ≤ 1)
    (h : snapshotCount db pid today = 1 ∨ pid = q.id) :
    snapshotCount (handleStep today db q) pid today = 1 := by
  unfold handleStep
  by_cases hk : pid = q.id ∧ today = today
  · obtain ⟨rfl, -⟩ := hk
    exact count_update_or_create_self db q.id today _ _ _ h1
  · have hk2 : pid ≠ q.id := fun hx => hk ⟨hx, rfl⟩
    rw [count_update_or_create_other db q.id today _ _ _ pid today hk]
    rcases h with h2 | h2
    · exact h2
    · exact absurd h2 hk2

/-- The database invariant enforced by the migration's
`unique_together = (project, snapshot_date)`: at most one snapshot row per
key. -/
def snapshotInv (db : List Snapshot) : Prop :=
  ∀ pid d, snapshotCount db pid d ≤ 1

theorem handleStep_inv (today : Int) (db : List Snapshot) (q : CommandProject)
    (h : snapshotInv db) : snapshotInv (handleStep today db q) :=
  fun pid d => handleStep_count_le today db q pid d (h pid d)

theorem handleRun_inv (today : Int) (projects : List CommandProject) :
    ∀ db, snapshotInv db → snapshotInv (handleRun today projects db) := by
  induction projects with
  | nil => exact fun _ h => h
  | cons q t ih =>
    intro db h
    exact ih (handleStep today db q) (handleStep_inv today db q h)

theorem handleRun_count_eq_one (today : Int) (projects : List CommandProject) :
    ∀ db, snapshotInv db → ∀ pid : Nat,
      ((∃ q ∈ projects, pid = q.id) ∨ snapshotCount db pid today = 1) →
      snapshotCount (handleRun today projects db) pid today = 1 := by
  induction projects with
  | nil =>
    intro db h pid hp
    rcases hp with ⟨q, hq, -⟩ | h1
    · exact absurd hq (List.not_mem_nil q)
    · exact h1
  | cons q t ih =>
    intro db h pid hp
    show snapshotCount (handleRun today t (handleStep today db q)) pid today = 1
    apply ih (handleStep today db q) (handleStep_inv today db q h)
    rcases hp with ⟨r, hr, hid⟩ | hcnt
    · rcases List.mem_cons.mp hr with h2 | hr2
      · exact Or.inr (handleStep_count_eq_one today db q pid (h pid today)
          (Or.inr (h2 ▸ hid)))
      · exact Or.inl ⟨r, hr2, hid⟩
    · exact Or.inr (handleStep_count_eq_one today db q pid (h pid today)
        (Or.inl hcnt))

theorem iterate_handleRun_inv (today : Int) (projects : List CommandProject)
    (db : List Snapshot) (h : snapshotInv db) (k : ℕ) :
    snapshotInv ((handleRun today projects)^[k] db) := by
  induction k with
  | zero => exact h
  | succ k ih =>
    rw [Function.iterate_succ_apply']
    exact handleRun_inv today projects _ ih

/-- C9: starting from any snapshot table satisfying the migration's
uniqueness constraint, after any positive number of runs of the command on
the same date every processed project has exactly one snapshot for that
date — a repeated run updates the existing `(project, snapshot_date)` row in
place instead of inserting another. -/
theorem C9_snapshot_idempotent (today : Int) (projects : List CommandProject)
    (db : List Snapshot) (p : CommandProject) (n : ℕ)
    (hinv : ∀ pid d, snapshotCount db pid d ≤ 1) (hp : p ∈ projects) :
    snapshotCount ((handleRun today projects)^[n + 1] db) p.id today = 1 := by
  induction n with
  | zero =>
    rw [Function.iterate_one]
    exact handleRun_count_eq_one today projects db hinv p.id (Or.inl ⟨p, hp, rfl⟩)
  | succ n ih =>
    rw [Function.iterate_succ_apply']
    exact handleRun_count_eq_one today projects _
      (iterate_handleRun_inv today projects db hinv (n + 1)) p.id (Or.inr ih)

theorem C9_witness :
    (∀ pid d, snapshotCount ([] : List Snapshot) pid d ≤ 1) ∧
    (⟨1, 0, 0, []⟩ : CommandProject) ∈ [(⟨1, 0, 0, []⟩ : CommandProject)] ∧
    snapshotCount
      ((handleRun 0 [(⟨1, 0, 0, []⟩ : CommandProject)])^[2] []) 1 0 = 1 :=
  ⟨fun pid d => by simp [snapshotCount],
   List.mem_singleton.mpr rfl,
   C9_snapshot_idempotent 0 [(⟨1, 0, 0, []⟩ : CommandProject)] []
     (⟨1, 0, 0, []⟩ : CommandProject) 1
     (fun pid d => by simp [snapshotCount]) (List.mem_singleton.mpr rfl)⟩
